import Mathlib

/-!
# caddy-nats: the `nats_publish` HTTP handler (`publish.go`)

A shallow embedding of `Publish.ServeHTTP` and `Publish.natsRequestReply`.

The handler talks to four collaborators that live outside `publish.go`: the request body
stream, the NATS connection, the `http.ResponseWriter` and the next handler of the chain.
Each collaborator is a record holding what its calls answer, and every call the handler
makes on one of them is appended to a trace of `Event`s, in program order.  A run of the
handler is therefore a `Result`: the trace, and how the function ended (a returned `error`
value, or a Go run-time panic).
-/

set_option autoImplicit false

namespace CaddyNats

/-! ## Go values -/

/-- A Go byte slice. -/
abbrev Bytes := List UInt8

/-- Errors that reach the handler.  `err == nats.ErrNoResponders` in the source is Go
interface equality with the sentinel; it is equality with `ErrNoResponders` here. -/
inductive GoError where
  /-- The sentinel `nats.ErrNoResponders`. -/
  | ErrNoResponders
  /-- The sentinel `nats.ErrTimeout`. -/
  | ErrTimeout
  /-- A `*strconv.NumError` with `Func`, `Num`, and `Err` being `strconv.ErrRange`
  (`true`) or `strconv.ErrSyntax` (`false`). -/
  | NumError (fn num : String) (range : Bool)
  /-- Any other error value, identified by its message. -/
  | Other (msg : String)
  deriving DecidableEq, Repr

/-- Go run-time panics the handler can raise. -/
inductive Panic where
  /-- Index `idx` taken of a slice of length `len`. -/
  | indexOutOfRange (idx len : Nat)
  /-- The panic `invalid WriteHeader code` of `net/http`. -/
  | invalidWriteHeaderCode (code : Int)
  deriving DecidableEq, Repr

/-- A Go `map[string]V`: an association list whose keys are pairwise distinct.  The order
of the entries stands for the order in which `range` happens to visit them. -/
abbrev GoMap (V : Type) := List (String × V)

/-- The Go assignment `m[k] = v`. -/
def GoMap.set {V : Type} : GoMap V → String → V → GoMap V
  | [], k, v => [(k, v)]
  | (k0, v0) :: rest, k, v =>
    if k0 = k then (k, v) :: rest else (k0, v0) :: GoMap.set rest k v

/-- The Go lookup `m[k]` with its presence flag. -/
def GoMap.get? {V : Type} : GoMap V → String → Option V
  | [], _ => none
  | (k0, v0) :: rest, k => if k0 = k then some v0 else GoMap.get? rest k

/-- The key set of a Go map. -/
def GoMap.keys {V : Type} (m : GoMap V) : List String :=
  m.map Prod.fst

/-! ## `strconv.Atoi` (Go standard library, base 10, 64-bit `int`) -/

/-- The value of a decimal digit, `none` for any other character. -/
def digitVal (c : Char) : Option Nat :=
  if 48 ≤ c.toNat ∧ c.toNat ≤ 57 then some (c.toNat - 48) else none

/-- The digit loop of `strconv.ParseUint(s, 10, 64)`, started with the value read so far:
`Except.error false` is a syntax error, `Except.error true` is a range error. -/
def parseUintLoop : List Char → Nat → Except Bool Nat
  | [], n => .ok n
  | c :: cs, n =>
    match digitVal c with
    | none => .error false
    | some d =>
      if n ≥ (2 ^ 64 - 1) / 10 + 1 then .error true
      else if n * 10 + d > 2 ^ 64 - 1 then .error true
      else parseUintLoop cs (n * 10 + d)

/-- Model of `strconv.Atoi`: an optional sign, then one or more decimal digits, the value
within `[-2^63, 2^63 - 1]`.  Every failure is a `*NumError` whose `Func` is `"Atoi"` and
whose `Num` is the input. -/
def Atoi (s : String) : Except GoError Int :=
  let body (neg : Bool) (cs : List Char) : Except GoError Int :=
    match cs with
    | [] => .error (.NumError "Atoi" s false)
    | _ :: _ =>
      match parseUintLoop cs 0 with
      | .error false => .error (.NumError "Atoi" s false)
      | .error true => .error (.NumError "Atoi" s true)
      | .ok un =>
        if !neg && un ≥ 2 ^ 63 then .error (.NumError "Atoi" s true)
        else if neg && un > 2 ^ 63 then .error (.NumError "Atoi" s true)
        else .ok (if neg then -(un : Int) else (un : Int))
  match s.toList with
  | [] => .error (.NumError "Atoi" s false)
  | c :: cs =>
    if c = '+' then body false cs
    else if c = '-' then body true cs
    else body false (c :: cs)

/-! ## `time.Duration` -/

/-- Two's-complement wrap-around of a 64-bit signed integer. -/
def wrapInt64 (x : Int) : Int :=
  (x + 2 ^ 63) % 2 ^ 64 - 2 ^ 63

/-- The constant `time.Millisecond`, in nanoseconds (`time.Duration` counts nanoseconds). -/
def Millisecond : Int := 1000000

/-- The constant `publishDefaultTimeout` of `publish.go`. -/
def publishDefaultTimeout : Int := 10000

/-- The constant `http.StatusNotFound`. -/
def StatusNotFound : Int := 404

/-- The constant `http.StatusInternalServerError`. -/
def StatusInternalServerError : Int := 500

/-! ## NATS messages -/

/-- The type `nats.Header`, a `map[string][]string`. -/
abbrev Header := GoMap (List String)

/-- The method `nats.Header.Set`: `h[key] = []string{value}`. -/
def Header.Set (h : Header) (key value : String) : Header :=
  GoMap.set h key [value]

/-- The method `nats.Header.Get`: the first value stored under `key` (case-sensitive), the
empty string when the key is absent or holds the nil slice. -/
def Header.Get (h : Header) (key : String) : String :=
  match GoMap.get? h key with
  | some (v :: _) => v
  | _ => ""

/-- The fields of `nats.Msg` the handler touches. -/
structure Msg where
  Subject : String
  Header : Header
  Data : Bytes
  deriving DecidableEq, Repr

/-- The constructor `nats.NewMsg`: the subject, an empty header map, no data. -/
def NewMsg (subject : String) : Msg :=
  { Subject := subject, Header := [], Data := [] }

/-! ## Collaborators and traces -/

/-- The NATS connection `p.app.conn`: what `Publish` and `RequestMsg` answer.  The second
argument of `RequestMsg` is the timeout as a `time.Duration` (nanoseconds). -/
structure Conn where
  Publish : String → Bytes → Option GoError
  RequestMsg : Msg → Int → Except GoError Msg

/-- The handler configuration `Publish` (the logger is left out: logging has no effect the
handler observes). -/
structure Publish where
  Subject : String
  WithReply : Bool
  Timeout : Int
  conn : Conn

/-- The `http.ResponseWriter` handed to the handler, the response writer of `net/http` on
which nothing is written yet: the `error` its `Write` answers.  What its `WriteHeader` does
is fixed by `net/http` and given by `ResponseWriter.WriteHeader` and `commitsFrom`. -/
structure ResponseWriter where
  Write : Bytes → Option GoError

/-- The function `checkWriteHeaderCode` of `net/http`, run by `WriteHeader` on a response
whose header is not written yet: a status outside `100..999` panics. -/
def checkWriteHeaderCode (code : Int) : Option Panic :=
  if code < 100 ∨ code > 999 then some (.invalidWriteHeaderCode code) else none

/-- The method `WriteHeader` of the response writer, as far as the caller's control flow
goes: the panic it raises, `none` when it returns. -/
def ResponseWriter.WriteHeader (_w : ResponseWriter) (code : Int) : Option Panic :=
  checkWriteHeaderCode code

/-- Whether `WriteHeader` sends `code` as an informational header, leaving the final
status open: the `1xx` codes other than `101 Switching Protocols`. -/
def informational (code : Int) : Bool :=
  decide (100 ≤ code ∧ code ≤ 199 ∧ code ≠ 101)

/-- The inbound `*http.Request` as the handler sees it: the header map, what
`ioutil.ReadAll(r.Body)` answers, and the replacer of the request context (with the
variables of `addNATSPublishVarsToReplacer` registered) applied as `ReplaceAll(·, "")`. -/
structure Request where
  Header : Header
  Body : Except GoError Bytes
  repl : String → String

/-- The next `caddyhttp.Handler`: the `error` its `ServeHTTP` answers. -/
structure Handler where
  ServeHTTP : Option GoError

/-- One call made by the handler on a collaborator. -/
inductive Event where
  /-- The call `ioutil.ReadAll(r.Body)`. -/
  | ReadAll
  /-- The call `r.Body.Close()`. -/
  | BodyClose
  /-- The call `conn.Publish(subj, data)`. -/
  | Publish (subj : String) (data : Bytes)
  /-- The call `conn.RequestMsg(msg, timeout)`. -/
  | RequestMsg (msg : Msg) (timeout : Int)
  /-- The call `w.WriteHeader(status)`. -/
  | WriteHeader (status : Int)
  /-- The call `w.Write(data)`. -/
  | Write (data : Bytes)
  /-- The call `next.ServeHTTP(w, r)`. -/
  | Next
  deriving DecidableEq, Repr

/-- How a Go function ended: it returned an `error` value (`none` is `nil`), or it
panicked. -/
inductive Outcome where
  | returned (err : Option GoError)
  | panicked (p : Panic)
  deriving DecidableEq, Repr

/-- A run of a handler function: the calls it made, in order, and how it ended. -/
structure Result where
  trace : List Event
  outcome : Outcome
  deriving DecidableEq, Repr

/-- Statuses passed to `WriteHeader`, in call order. -/
def statuses : List Event → List Int
  | [] => []
  | .WriteHeader s :: rest => s :: statuses rest
  | _ :: rest => statuses rest

/-- Byte slices passed to `Write`, in call order. -/
def writes : List Event → List Bytes
  | [] => []
  | .Write d :: rest => d :: writes rest
  | _ :: rest => writes rest

/-- Bus operations (`Publish` and `RequestMsg` calls) of a trace, in call order. -/
def busOps : List Event → List Event
  | [] => []
  | .Publish s d :: rest => .Publish s d :: busOps rest
  | .RequestMsg m t :: rest => .RequestMsg m t :: busOps rest
  | _ :: rest => busOps rest

/-- Whether a trace holds a `r.Body.Close()` call. -/
def bodyClosed (t : List Event) : Bool :=
  t.contains .BodyClose

/-- Statuses a trace commits on the response, following the response writer of
`net/http`.  The flag tells whether a status is already committed.  While none is, a
`WriteHeader` call with a status outside `100..999` panics and commits nothing, one with an
informational status commits nothing either, any other commits its argument, and a `Write`
commits an implicit `200`.  Once a status is committed, a further `WriteHeader` call is
ignored and a `Write` commits nothing more. -/
def commitsFrom : Bool → List Event → List Int
  | _, [] => []
  | false, .WriteHeader s :: rest =>
    if (checkWriteHeaderCode s).isSome then commitsFrom false rest
    else if informational s then commitsFrom false rest
    else s :: commitsFrom true rest
  | true, .WriteHeader _ :: rest => commitsFrom true rest
  | false, .Write _ :: rest => 200 :: commitsFrom true rest
  | wrote, _ :: rest => commitsFrom wrote rest

/-- Statuses committed by a whole trace, starting from a fresh response. -/
def statusCommits (t : List Event) : List Int :=
  commitsFrom false t

/-! ## `publish.go` -/

/-- The timeout argument of `RequestMsg`: `time.Duration(p.Timeout)*time.Millisecond`, an
`int64` product. -/
def requestTimeout (p : Publish) : Int :=
  wrapInt64 (p.Timeout * Millisecond)

/-- The loop `for k, v := range headers { msg.Header.Set(k, v) }`. -/
def setHeaders : GoMap String → Msg → Msg
  | [], msg => msg
  | (k, v) :: rest, msg => setHeaders rest { msg with Header := Header.Set msg.Header k v }

/-- The message `natsRequestReply` hands to `RequestMsg`. -/
def requestMsg (subject : String) (reqBody : Bytes) (headers : GoMap String) : Msg :=
  { setHeaders headers (NewMsg subject) with Data := reqBody }

/-- The statement `w.WriteHeader(status)` reached after the calls `pre`, followed by the
rest of the function: when the call panics the function ends there, otherwise `rest`
runs. -/
def writeHeaderThen (w : ResponseWriter) (pre : List Event) (status : Int) (rest : Result) :
    Result :=
  match w.WriteHeader status with
  | some pn => { trace := pre ++ [.WriteHeader status], outcome := .panicked pn }
  | none => { trace := pre ++ .WriteHeader status :: rest.trace, outcome := rest.outcome }

/-- The method `Publish.natsRequestReply`. -/
def natsRequestReply (p : Publish) (subject : String) (reqBody : Bytes) (w : ResponseWriter)
    (headers : GoMap String) : Result :=
  let msg := requestMsg subject reqBody headers
  let call := Event.RequestMsg msg (requestTimeout p)
  match p.conn.RequestMsg msg (requestTimeout p) with
  | .error err =>
    if err = GoError.ErrNoResponders then
      writeHeaderThen w [call] StatusNotFound
        { trace := [], outcome := .returned (some err) }
    else
      writeHeaderThen w [call] StatusInternalServerError
        { trace := [], outcome := .returned (some err) }
  | .ok m =>
    let code := Header.Get m.Header "Nats-Service-Error-Code"
    if code ≠ "" ∧ code ≠ "200" then
      match Atoi code with
      | .error err => { trace := [call], outcome := .returned (some err) }
      | .ok status =>
        writeHeaderThen w [call] status
          { trace := [.Write m.Data], outcome := .returned (w.Write m.Data) }
    else
      { trace := [call, .Write m.Data], outcome := .returned (w.Write m.Data) }

/-- The loop `for k, v := range r.Header { headers[k] = v[0] }` of `ServeHTTP`, started
with the map built so far; `v[0]` of an empty slice panics. -/
def collectHeaders : Header → GoMap String → Except Panic (GoMap String)
  | [], headers => .ok headers
  | (_, []) :: _, _ => .error (.indexOutOfRange 0 0)
  | (k, v0 :: _) :: rest, headers => collectHeaders rest (GoMap.set headers k v0)

/-- The statement `defer r.Body.Close()`: the call runs when the function ends, by a
return or by a panic. -/
def deferBodyClose (r : Result) : Result :=
  { r with trace := r.trace ++ [.BodyClose] }

/-- The method `Publish.ServeHTTP`. -/
def ServeHTTP (p : Publish) (w : ResponseWriter) (r : Request) (next : Handler) : Result :=
  let subj := r.repl p.Subject
  match r.Body with
  | .error err => { trace := [.ReadAll], outcome := .returned (some err) }
  | .ok data =>
    deferBodyClose <|
      match collectHeaders r.Header [] with
      | .error pn => { trace := [.ReadAll], outcome := .panicked pn }
      | .ok headers =>
        if p.WithReply then
          let res := natsRequestReply p subj data w headers
          { res with trace := .ReadAll :: res.trace }
        else
          match p.conn.Publish subj data with
          | some err =>
            { trace := [.ReadAll, .Publish subj data], outcome := .returned (some err) }
          | none =>
            { trace := [.ReadAll, .Publish subj data, .Next],
              outcome := .returned next.ServeHTTP }

/-! ## Concrete collaborators -/

/-- A response writer whose `Write` succeeds. -/
def okWriter : ResponseWriter :=
  { Write := fun _ => none }

/-- A connection on which `Publish` succeeds and `RequestMsg` answers `reply`. -/
def replyConn (reply : Msg) : Conn :=
  { Publish := fun _ _ => none, RequestMsg := fun _ _ => .ok reply }

/-- A connection on which every operation fails with `e`. -/
def failConn (e : GoError) : Conn :=
  { Publish := fun _ _ => some e, RequestMsg := fun _ _ => .error e }

/-- A next handler that returns `nil`. -/
def okNext : Handler :=
  { ServeHTTP := none }

/-- The bytes of `"hello"`. -/
def helloBytes : Bytes := [104, 101, 108, 108, 111]

/-- The bytes of `"world"`. -/
def worldBytes : Bytes := [119, 111, 114, 108, 100]

/-- The bytes of `"fail"`. -/
def failBytes : Bytes := [102, 97, 105, 108]

/-- A reply with the given payload and `Nats-Service-Error-Code` header value. -/
def codedReply (code : String) (payload : Bytes) : Msg :=
  { Subject := "_INBOX.1", Header := [("Nats-Service-Error-Code", [code])], Data := payload }

/-- A reply with the given payload and no header. -/
def plainReply (payload : Bytes) : Msg :=
  { Subject := "_INBOX.1", Header := [], Data := payload }

/-- A request-reply configuration on subject `"svc"` over the given connection. -/
def replyPublish (timeout : Int) (conn : Conn) : Publish :=
  { Subject := "svc", WithReply := true, Timeout := timeout, conn := conn }

/-- A fire-and-forget configuration on subject `"svc"` over the given connection. -/
def plainPublish (conn : Conn) : Publish :=
  { Subject := "svc", WithReply := false, Timeout := 0, conn := conn }

/-- A request with the given headers and body outcome, whose replacer leaves the subject
as it is. -/
def mkRequest (hdr : Header) (body : Except GoError Bytes) : Request :=
  { Header := hdr, Body := body, repl := fun s => s }

/-! ## The response writer -/

/-- A `WriteHeader` call with a status within `100..999` returns and the function goes
on. -/
theorem writeHeaderThen_valid (w : ResponseWriter) (pre : List Event) (status : Int)
    (rest : Result) (hlo : 100 ≤ status) (hhi : status ≤ 999) :
    writeHeaderThen w pre status rest
      = { trace := pre ++ .WriteHeader status :: rest.trace, outcome := rest.outcome } := by
  have hc : checkWriteHeaderCode status = none := by
    unfold checkWriteHeaderCode
    rw [if_neg]
    omega
  simp [writeHeaderThen, ResponseWriter.WriteHeader, hc]

/-- A `WriteHeader` call with a status outside `100..999` panics and ends the function. -/
theorem writeHeaderThen_invalid (w : ResponseWriter) (pre : List Event) (status : Int)
    (rest : Result) (hbad : status < 100 ∨ status > 999) :
    writeHeaderThen w pre status rest
      = { trace := pre ++ [.WriteHeader status],
          outcome := .panicked (.invalidWriteHeaderCode status) } := by
  have hc : checkWriteHeaderCode status = some (.invalidWriteHeaderCode status) := by
    unfold checkWriteHeaderCode
    rw [if_pos hbad]
  simp [writeHeaderThen, ResponseWriter.WriteHeader, hc]

/-- The calls `ReadAll` and `BodyClose` that `ServeHTTP` puts around the request/reply
branch commit nothing. -/
theorem commitsFrom_append_bodyClose (wrote : Bool) (t : List Event) :
    commitsFrom wrote (t ++ [.BodyClose]) = commitsFrom wrote t := by
  induction t generalizing wrote with
  | nil => cases wrote <;> simp [commitsFrom]
  | cons e rest ih =>
    rw [List.cons_append]
    cases e with
    | WriteHeader st =>
      cases wrote
      · simp only [commitsFrom]
        split_ifs <;> simp [ih]
      · simp only [commitsFrom, ih]
    | Write d => cases wrote <;> simp [commitsFrom, ih]
    | ReadAll => cases wrote <;> simp [commitsFrom, ih]
    | BodyClose => cases wrote <;> simp [commitsFrom, ih]
    | Publish sj d => cases wrote <;> simp [commitsFrom, ih]
    | RequestMsg mg tm => cases wrote <;> simp [commitsFrom, ih]
    | Next => cases wrote <;> simp [commitsFrom, ih]

/-! ## Request/reply: the error paths and the reply paths -/

/-- Claim C1.  When the bus request/reply call returns an error `e`, `natsRequestReply`
calls `WriteHeader` once, with 404 if `e` is `nats.ErrNoResponders` and with 500 for any
other error (a timeout included), never calls `Write`, and returns `e` itself. -/
theorem natsRequestReply_bus_error (p : Publish) (subject : String) (reqBody : Bytes)
    (w : ResponseWriter) (headers : GoMap String) (e : GoError)
    (herr : p.conn.RequestMsg (requestMsg subject reqBody headers) (requestTimeout p)
      = .error e) :
    (natsRequestReply p subject reqBody w headers).outcome = .returned (some e) ∧
    statuses (natsRequestReply p subject reqBody w headers).trace
      = [if e = GoError.ErrNoResponders then 404 else 500] ∧
    writes (natsRequestReply p subject reqBody w headers).trace = [] := by
  unfold natsRequestReply
  simp only [herr]
  by_cases hno : e = GoError.ErrNoResponders
  · rw [if_pos hno, writeHeaderThen_valid _ _ _ _ (by decide) (by decide)]
    simp [hno, statuses, writes, StatusNotFound]
  · rw [if_neg hno, writeHeaderThen_valid _ _ _ _ (by decide) (by decide)]
    simp [hno, statuses, writes, StatusInternalServerError]

/-- Witness of C1: no responders gives 404, a timeout gives 500, both without a body. -/
theorem natsRequestReply_bus_error_witness :
    ((natsRequestReply (replyPublish 10000 (failConn .ErrNoResponders)) "svc" helloBytes
        okWriter []).outcome = .returned (some .ErrNoResponders) ∧
      statuses (natsRequestReply (replyPublish 10000 (failConn .ErrNoResponders)) "svc"
        helloBytes okWriter []).trace = [404] ∧
      writes (natsRequestReply (replyPublish 10000 (failConn .ErrNoResponders)) "svc"
        helloBytes okWriter []).trace = []) ∧
    ((natsRequestReply (replyPublish 10000 (failConn .ErrTimeout)) "svc" helloBytes
        okWriter []).outcome = .returned (some .ErrTimeout) ∧
      statuses (natsRequestReply (replyPublish 10000 (failConn .ErrTimeout)) "svc"
        helloBytes okWriter []).trace = [500] ∧
      writes (natsRequestReply (replyPublish 10000 (failConn .ErrTimeout)) "svc"
        helloBytes okWriter []).trace = []) :=
  ⟨natsRequestReply_bus_error (replyPublish 10000 (failConn .ErrNoResponders)) "svc"
      helloBytes okWriter [] .ErrNoResponders rfl,
    natsRequestReply_bus_error (replyPublish 10000 (failConn .ErrTimeout)) "svc"
      helloBytes okWriter [] .ErrTimeout rfl⟩

/-- Claim C2, at the override headers `"99"` and `"103"`.  Both values are non-empty,
differ from `"200"` and are read by `strconv.Atoi`.  With `"99"` the `WriteHeader(99)` call
panics on the invalid status: no status is committed and `Write` is never called.  With
`"103"` the status is sent as an informational header and the `Write` that follows commits
`200`, not `103`. -/
theorem natsRequestReply_override_rejected_codes :
    Atoi "99" = .ok 99 ∧
    (natsRequestReply (replyPublish 10000 (replyConn (codedReply "99" failBytes))) "svc"
        helloBytes okWriter []).outcome = .panicked (.invalidWriteHeaderCode 99) ∧
    writes (natsRequestReply (replyPublish 10000 (replyConn (codedReply "99" failBytes)))
      "svc" helloBytes okWriter []).trace = [] ∧
    statusCommits (natsRequestReply
      (replyPublish 10000 (replyConn (codedReply "99" failBytes))) "svc" helloBytes
      okWriter []).trace = [] ∧
    Atoi "103" = .ok 103 ∧
    statusCommits (natsRequestReply
      (replyPublish 10000 (replyConn (codedReply "103" failBytes))) "svc" helloBytes
      okWriter []).trace = [200] := by
  refine ⟨rfl, ?_, ?_, ?_, rfl, ?_⟩ <;> decide

/-- Claim C2, amended.  When the bus replies and the `Nats-Service-Error-Code` header value
is non-empty, differs from `"200"` and `strconv.Atoi` reads it as `n`, with `n = 101` or
`200 ≤ n ≤ 999`, `natsRequestReply` calls `WriteHeader(n)` exactly once, which commits
the status `n`, then `Write` exactly once with the reply payload unchanged, and returns
what `Write` returned. -/
theorem natsRequestReply_override (p : Publish) (subject : String) (reqBody : Bytes)
    (w : ResponseWriter) (headers : GoMap String) (m : Msg) (n : Int)
    (hok : p.conn.RequestMsg (requestMsg subject reqBody headers) (requestTimeout p) = .ok m)
    (hne : Header.Get m.Header "Nats-Service-Error-Code" ≠ "")
    (h200 : Header.Get m.Header "Nats-Service-Error-Code" ≠ "200")
    (hn : Atoi (Header.Get m.Header "Nats-Service-Error-Code") = .ok n)
    (hfinal : n = 101 ∨ (200 ≤ n ∧ n ≤ 999)) :
    (natsRequestReply p subject reqBody w headers).trace
      = [.RequestMsg (requestMsg subject reqBody headers) (requestTimeout p),
         .WriteHeader n, .Write m.Data] ∧
    statuses (natsRequestReply p subject reqBody w headers).trace = [n] ∧
    statusCommits (natsRequestReply p subject reqBody w headers).trace = [n] ∧
    writes (natsRequestReply p subject reqBody w headers).trace = [m.Data] ∧
    (natsRequestReply p subject reqBody w headers).outcome = .returned (w.Write m.Data) := by
  have hlo : 100 ≤ n := by omega
  have hhi : n ≤ 999 := by omega
  have hchk : checkWriteHeaderCode n = none := by
    unfold checkWriteHeaderCode
    rw [if_neg]
    omega
  have hinf : informational n = false := by
    unfold informational
    rw [decide_eq_false_iff_not]
    omega
  unfold natsRequestReply
  simp only [hok, hn]
  rw [if_pos ⟨hne, h200⟩, writeHeaderThen_valid _ _ _ _ hlo hhi]
  simp [statuses, writes, statusCommits, commitsFrom, hchk, hinf]

/-- Witness of the amended C2: header `"503"` with payload `"fail"` gives status 503 and
body `"fail"`. -/
theorem natsRequestReply_override_witness :
    (natsRequestReply (replyPublish 10000 (replyConn (codedReply "503" failBytes))) "svc"
        helloBytes okWriter []).trace
      = [.RequestMsg (requestMsg "svc" helloBytes [])
          (requestTimeout (replyPublish 10000 (replyConn (codedReply "503" failBytes)))),
         .WriteHeader 503, .Write failBytes] ∧
    statuses (natsRequestReply (replyPublish 10000 (replyConn (codedReply "503" failBytes)))
      "svc" helloBytes okWriter []).trace = [503] ∧
    statusCommits (natsRequestReply
      (replyPublish 10000 (replyConn (codedReply "503" failBytes)))
      "svc" helloBytes okWriter []).trace = [503] ∧
    writes (natsRequestReply (replyPublish 10000 (replyConn (codedReply "503" failBytes)))
      "svc" helloBytes okWriter []).trace = [failBytes] ∧
    (natsRequestReply (replyPublish 10000 (replyConn (codedReply "503" failBytes))) "svc"
        helloBytes okWriter []).outcome = .returned none :=
  natsRequestReply_override (replyPublish 10000 (replyConn (codedReply "503" failBytes)))
    "svc" helloBytes okWriter [] (codedReply "503" failBytes) 503 rfl (by decide)
    (by decide) rfl (Or.inr (by decide))

/-- Claim C3.  When the bus replies and the `Nats-Service-Error-Code` header is absent
(read as the empty string) or is exactly `"200"`, `natsRequestReply` never calls
`WriteHeader`, calls `Write` exactly once with the reply payload, and returns what
`Write` returned. -/
theorem natsRequestReply_no_override (p : Publish) (subject : String) (reqBody : Bytes)
    (w : ResponseWriter) (headers : GoMap String) (m : Msg)
    (hok : p.conn.RequestMsg (requestMsg subject reqBody headers) (requestTimeout p) = .ok m)
    (hcode : Header.Get m.Header "Nats-Service-Error-Code" = "" ∨
      Header.Get m.Header "Nats-Service-Error-Code" = "200") :
    statuses (natsRequestReply p subject reqBody w headers).trace = [] ∧
    writes (natsRequestReply p subject reqBody w headers).trace = [m.Data] ∧
    (natsRequestReply p subject reqBody w headers).outcome = .returned (w.Write m.Data) := by
  unfold natsRequestReply
  rcases hcode with h | h <;> simp [hok, h, statuses, writes]

/-- Witness of C3: payload `"hello"` answered with `"world"` and no header gives no
explicit status and body `"world"`; so does a reply whose header is `"200"`. -/
theorem natsRequestReply_no_override_witness :
    (statuses (natsRequestReply (replyPublish 10000 (replyConn (plainReply worldBytes)))
        "svc" helloBytes okWriter []).trace = [] ∧
      writes (natsRequestReply (replyPublish 10000 (replyConn (plainReply worldBytes)))
        "svc" helloBytes okWriter []).trace = [worldBytes] ∧
      (natsRequestReply (replyPublish 10000 (replyConn (plainReply worldBytes))) "svc"
        helloBytes okWriter []).outcome = .returned none) ∧
    (statuses (natsRequestReply
        (replyPublish 10000 (replyConn (codedReply "200" worldBytes)))
        "svc" helloBytes okWriter []).trace = [] ∧
      writes (natsRequestReply (replyPublish 10000 (replyConn (codedReply "200" worldBytes)))
        "svc" helloBytes okWriter []).trace = [worldBytes] ∧
      (natsRequestReply (replyPublish 10000 (replyConn (codedReply "200" worldBytes))) "svc"
        helloBytes okWriter []).outcome = .returned none) :=
  ⟨natsRequestReply_no_override (replyPublish 10000 (replyConn (plainReply worldBytes)))
      "svc" helloBytes okWriter [] (plainReply worldBytes) rfl (Or.inl (by decide)),
    natsRequestReply_no_override
      (replyPublish 10000 (replyConn (codedReply "200" worldBytes)))
      "svc" helloBytes okWriter [] (codedReply "200" worldBytes) rfl (Or.inr (by decide))⟩

/-- Claim C4.  When the bus replies and the `Nats-Service-Error-Code` header value is
non-empty, differs from `"200"` and `strconv.Atoi` rejects it with error `e`,
`natsRequestReply` returns `e` and calls neither `WriteHeader` nor `Write`. -/
theorem natsRequestReply_malformed_override (p : Publish) (subject : String)
    (reqBody : Bytes) (w : ResponseWriter) (headers : GoMap String) (m : Msg) (e : GoError)
    (hok : p.conn.RequestMsg (requestMsg subject reqBody headers) (requestTimeout p) = .ok m)
    (hne : Header.Get m.Header "Nats-Service-Error-Code" ≠ "")
    (h200 : Header.Get m.Header "Nats-Service-Error-Code" ≠ "200")
    (hbad : Atoi (Header.Get m.Header "Nats-Service-Error-Code") = .error e) :
    (natsRequestReply p subject reqBody w headers).outcome = .returned (some e) ∧
    statuses (natsRequestReply p subject reqBody w headers).trace = [] ∧
    writes (natsRequestReply p subject reqBody w headers).trace = [] := by
  unfold natsRequestReply
  simp [hok, hne, h200, hbad, statuses, writes]

/-- Witness of C4: header `"abc"` fails with the syntax error of `Atoi`, nothing is
written. -/
theorem natsRequestReply_malformed_override_witness :
    (natsRequestReply (replyPublish 10000 (replyConn (codedReply "abc" failBytes))) "svc"
        helloBytes okWriter []).outcome
      = .returned (some (.NumError "Atoi" "abc" false)) ∧
    statuses (natsRequestReply (replyPublish 10000 (replyConn (codedReply "abc" failBytes)))
      "svc" helloBytes okWriter []).trace = [] ∧
    writes (natsRequestReply (replyPublish 10000 (replyConn (codedReply "abc" failBytes)))
      "svc" helloBytes okWriter []).trace = [] :=
  natsRequestReply_malformed_override
    (replyPublish 10000 (replyConn (codedReply "abc" failBytes))) "svc" helloBytes okWriter
    [] (codedReply "abc" failBytes) (.NumError "Atoi" "abc" false) rfl (by decide)
    (by decide) rfl

/-! ## Go maps -/

/-- Looking a key up after an assignment. -/
theorem GoMap.get?_set {V : Type} (m : GoMap V) (k j : String) (v : V) :
    GoMap.get? (GoMap.set m k v) j = if k = j then some v else GoMap.get? m j := by
  induction m with
  | nil => simp [GoMap.set, GoMap.get?]
  | cons kv rest ih =>
    obtain ⟨k0, v0⟩ := kv
    by_cases h0 : k0 = k
    · subst h0
      by_cases hj : k0 = j <;> simp [GoMap.set, GoMap.get?, hj]
    · by_cases hj : k0 = j
      · subst hj
        have : ¬ k = k0 := fun h => h0 h.symm
        simp [GoMap.set, GoMap.get?, h0, this]
      · simp [GoMap.set, GoMap.get?, h0, hj, ih]

/-- A key that is not in the map is not found. -/
theorem GoMap.get?_eq_none_of_not_mem {V : Type} (m : GoMap V) (k : String)
    (h : k ∉ GoMap.keys m) : GoMap.get? m k = none := by
  induction m with
  | nil => simp [GoMap.get?]
  | cons kv rest ih =>
    obtain ⟨k0, v0⟩ := kv
    have h1 : ¬ k0 = k := fun e => h (by simp [GoMap.keys, e])
    have h2 : k ∉ GoMap.keys rest := fun e => h (by
      unfold GoMap.keys at e ⊢
      exact List.mem_cons_of_mem _ e)
    simp [GoMap.get?, h1, ih h2]

/-- The keys of a map are the names that are found in it. -/
theorem GoMap.mem_keys_iff {V : Type} (m : GoMap V) (k : String) :
    k ∈ GoMap.keys m ↔ (GoMap.get? m k).isSome = true := by
  induction m with
  | nil => simp [GoMap.get?, GoMap.keys]
  | cons kv rest ih =>
    obtain ⟨k0, v0⟩ := kv
    have hk : GoMap.keys ((k0, v0) :: rest) = k0 :: GoMap.keys rest := rfl
    rw [hk, List.mem_cons]
    by_cases h0 : k0 = k
    · simp [GoMap.get?, h0]
    · have h1 : ¬ k = k0 := fun e => h0 e.symm
      simp [GoMap.get?, h0, h1, ih]

/-- In a map with distinct keys an entry is found under its key. -/
theorem GoMap.get?_of_mem {V : Type} (m : GoMap V) (k : String) (v : V)
    (hnd : (GoMap.keys m).Nodup) (h : (k, v) ∈ m) : GoMap.get? m k = some v := by
  induction m with
  | nil => simp at h
  | cons kv rest ih =>
    obtain ⟨k0, v0⟩ := kv
    have hk : GoMap.keys ((k0, v0) :: rest) = k0 :: GoMap.keys rest := rfl
    rw [hk, List.nodup_cons] at hnd
    rcases List.mem_cons.mp h with heq | hin
    · cases heq
      simp [GoMap.get?]
    · have hne : ¬ k0 = k := by
        intro e
        subst e
        exact hnd.1 (List.mem_map_of_mem Prod.fst hin)
      simp [GoMap.get?, hne, ih hnd.2 hin]

/-- An assignment adds at most its own key. -/
theorem GoMap.mem_keys_set {V : Type} (m : GoMap V) (k j : String) (v : V) :
    j ∈ GoMap.keys (GoMap.set m k v) ↔ j = k ∨ j ∈ GoMap.keys m := by
  rw [GoMap.mem_keys_iff, GoMap.mem_keys_iff, GoMap.get?_set]
  by_cases h : k = j
  · simp [h]
  · have h2 : ¬ j = k := fun e => h e.symm
    simp [h, h2]

/-- An assignment keeps the keys distinct. -/
theorem GoMap.nodup_keys_set {V : Type} (m : GoMap V) (k : String) (v : V)
    (hnd : (GoMap.keys m).Nodup) : (GoMap.keys (GoMap.set m k v)).Nodup := by
  induction m with
  | nil => simp [GoMap.set, GoMap.keys]
  | cons kv rest ih =>
    obtain ⟨k0, v0⟩ := kv
    have hk : GoMap.keys ((k0, v0) :: rest) = k0 :: GoMap.keys rest := rfl
    rw [hk, List.nodup_cons] at hnd
    by_cases h0 : k0 = k
    · subst h0
      have : GoMap.set ((k0, v0) :: rest) k0 v = (k0, v) :: rest := by simp [GoMap.set]
      rw [this]
      exact List.nodup_cons.mpr hnd
    · have hs : GoMap.set ((k0, v0) :: rest) k v = (k0, v0) :: GoMap.set rest k v := by
        simp [GoMap.set, h0]
      have hk2 : GoMap.keys ((k0, v0) :: GoMap.set rest k v)
          = k0 :: GoMap.keys (GoMap.set rest k v) := rfl
      rw [hs, hk2, List.nodup_cons]
      refine ⟨?_, ih hnd.2⟩
      rw [GoMap.mem_keys_set]
      rintro (e | e)
      · exact h0 e
      · exact hnd.1 e

/-! ## Header collection -/

/-- A name with no value makes the collection loop panic, whatever was collected before. -/
theorem collectHeaders_panics (hdr : Header) (headers : GoMap String) (k : String)
    (h : (k, []) ∈ hdr) : collectHeaders hdr headers = .error (.indexOutOfRange 0 0) := by
  induction hdr generalizing headers with
  | nil => simp at h
  | cons kv rest ih =>
    obtain ⟨k0, v⟩ := kv
    cases v with
    | nil => simp [collectHeaders]
    | cons v0 vs =>
      simp only [collectHeaders]
      apply ih
      rcases List.mem_cons.mp h with heq | hin
      · cases heq
      · exact hin

/-- When every name has a value the loop ends normally. -/
theorem collectHeaders_ok (hdr : Header) (acc : GoMap String)
    (hval : ∀ k vs, (k, vs) ∈ hdr → vs ≠ []) :
    ∃ headers, collectHeaders hdr acc = .ok headers := by
  induction hdr generalizing acc with
  | nil => exact ⟨acc, rfl⟩
  | cons kv rest ih =>
    obtain ⟨k0, v⟩ := kv
    cases v with
    | nil => exact absurd rfl (hval k0 [] (List.mem_cons_self _ _))
    | cons v0 vs =>
      simp only [collectHeaders]
      exact ih _ (fun k vs hin => hval k vs (List.mem_cons_of_mem _ hin))

/-- When every name has a value the loop ends normally; the collected map keeps distinct
keys, and a name is found with the first value of its entry, or as it was before the loop
when the request does not carry it. -/
theorem collectHeaders_get? (hdr : Header) (acc : GoMap String)
    (hnd : (GoMap.keys hdr).Nodup) (hacc : (GoMap.keys acc).Nodup)
    (hne : ∀ k vs, (k, vs) ∈ hdr → vs ≠ []) :
    ∃ headers, collectHeaders hdr acc = .ok headers ∧ (GoMap.keys headers).Nodup ∧
      ∀ k, GoMap.get? headers k =
        match GoMap.get? hdr k with
        | some vs => vs.head?
        | none => GoMap.get? acc k := by
  induction hdr generalizing acc with
  | nil => exact ⟨acc, rfl, hacc, fun k => by simp [GoMap.get?]⟩
  | cons kv rest ih =>
    obtain ⟨k0, v⟩ := kv
    cases v with
    | nil => exact absurd rfl (hne k0 [] (List.mem_cons_self _ _))
    | cons v0 vs =>
      have hk : GoMap.keys ((k0, v0 :: vs) :: rest) = k0 :: GoMap.keys rest := rfl
      rw [hk, List.nodup_cons] at hnd
      obtain ⟨headers, hc, hnd2, hget⟩ := ih (GoMap.set acc k0 v0) hnd.2
        (GoMap.nodup_keys_set acc k0 v0 hacc)
        (fun k vs hin => hne k vs (List.mem_cons_of_mem _ hin))
      refine ⟨headers, by simpa [collectHeaders] using hc, hnd2, fun k => ?_⟩
      rw [hget k]
      by_cases hk : k0 = k
      · subst hk
        rw [GoMap.get?_eq_none_of_not_mem rest k0 hnd.1]
        simp [GoMap.get?_set, GoMap.get?]
      · have : GoMap.get? ((k0, v0 :: vs) :: rest) k = GoMap.get? rest k := by
          simp [GoMap.get?, hk]
        rw [this]
        cases GoMap.get? rest k <;> simp [GoMap.get?_set, hk]

/-- Claim C5.  When every inbound header name has at least one value, the header
collection of `ServeHTTP` ends normally with a map whose keys are exactly the inbound
names, each mapped to the first value of its list; this map is the one handed to
`natsRequestReply`. -/
theorem collectHeaders_first_value (hdr : Header) (hnd : (GoMap.keys hdr).Nodup)
    (hne : ∀ k vs, (k, vs) ∈ hdr → vs ≠ []) :
    ∃ headers, collectHeaders hdr [] = .ok headers ∧
      (GoMap.keys headers).Nodup ∧
      (∀ k, k ∈ GoMap.keys headers ↔ k ∈ GoMap.keys hdr) ∧
      (∀ k vs, (k, vs) ∈ hdr → GoMap.get? headers k = vs.head?) ∧
      ∀ (p : Publish) (w : ResponseWriter) (next : Handler) (data : Bytes)
        (repl : String → String), p.WithReply = true →
        (ServeHTTP p w { Header := hdr, Body := .ok data, repl := repl } next).trace
          = .ReadAll :: (natsRequestReply p (repl p.Subject) data w headers).trace
              ++ [.BodyClose] := by
  obtain ⟨headers, hc, hnd2, hget⟩ :=
    collectHeaders_get? hdr [] hnd (by simp [GoMap.keys]) hne
  have hfound : ∀ k vs, (k, vs) ∈ hdr → GoMap.get? headers k = vs.head? := by
    intro k vs hin
    rw [hget k, GoMap.get?_of_mem hdr k vs hnd hin]
  refine ⟨headers, hc, hnd2, fun k => ?_, hfound, ?_⟩
  · rw [GoMap.mem_keys_iff, GoMap.mem_keys_iff, hget k]
    cases hk : GoMap.get? hdr k with
    | none => simp [GoMap.get?]
    | some vs =>
      have hin : k ∈ GoMap.keys hdr := by rw [GoMap.mem_keys_iff, hk]; rfl
      obtain ⟨⟨k1, vs1⟩, hmem, hk1⟩ := List.mem_map.mp hin
      simp only at hk1
      subst hk1
      have hvs : vs1 = vs := by
        have := GoMap.get?_of_mem hdr k1 vs1 hnd hmem
        rw [hk] at this
        exact (Option.some.inj this).symm
      subst hvs
      cases vs1 with
      | nil => exact absurd rfl (hne k1 [] hmem)
      | cons v0 vs => simp
  · intro p w next data repl hrep
    simp [ServeHTTP, hc, hrep, deferBodyClose]

/-- Witness of C5: header `X` with values `a`, `b` is collected as `X = a` only. -/
theorem collectHeaders_first_value_witness :
    collectHeaders [("X", ["a", "b"])] [] = .ok [("X", "a")] ∧
    ∃ headers, collectHeaders [("X", ["a", "b"])] [] = .ok headers ∧
      (GoMap.keys headers).Nodup ∧
      (∀ k, k ∈ GoMap.keys headers ↔ k ∈ GoMap.keys [("X", ["a", "b"])]) ∧
      (∀ k vs, (k, vs) ∈ [("X", ["a", "b"])] → GoMap.get? headers k = vs.head?) ∧
      ∀ (p : Publish) (w : ResponseWriter) (next : Handler) (data : Bytes)
        (repl : String → String), p.WithReply = true →
        (ServeHTTP p w { Header := [("X", ["a", "b"])], Body := .ok data, repl := repl }
            next).trace
          = .ReadAll :: (natsRequestReply p (repl p.Subject) data w headers).trace
              ++ [.BodyClose] :=
  ⟨rfl, collectHeaders_first_value [("X", ["a", "b"])] (by decide)
    (by intro k vs h; simp at h; simp [h.2])⟩

/-! ## `ServeHTTP`: fire-and-forget publish, body handling, empty header lists -/

/-- Claim C6.  With `WithReply` false, a body that is read in full, inbound headers that
each carry a value, and a connection that answers `nil` to the publish of that body on the
resolved subject, the connection sees exactly one bus operation, the call
`Publish(subj, data)` with the whole request body (a call that has no header argument, and
no `RequestMsg`), the handler calls neither `WriteHeader` nor `Write`, it invokes the next
handler and returns what that handler returned. -/
theorem ServeHTTP_publish_success (p : Publish) (w : ResponseWriter) (r : Request)
    (next : Handler) (data : Bytes)
    (hrep : p.WithReply = false) (hbody : r.Body = .ok data)
    (hval : ∀ k vs, (k, vs) ∈ r.Header → vs ≠ [])
    (hpub : p.conn.Publish (r.repl p.Subject) data = none) :
    busOps (ServeHTTP p w r next).trace = [.Publish (r.repl p.Subject) data] ∧
    statuses (ServeHTTP p w r next).trace = [] ∧
    writes (ServeHTTP p w r next).trace = [] ∧
    (ServeHTTP p w r next).trace
      = [.ReadAll, .Publish (r.repl p.Subject) data, .Next, .BodyClose] ∧
    (ServeHTTP p w r next).outcome = .returned next.ServeHTTP := by
  obtain ⟨headers, hc⟩ := collectHeaders_ok r.Header [] hval
  unfold ServeHTTP
  simp [hbody, hrep, hc, hpub, deferBodyClose, busOps, statuses, writes]

/-- Witness of C6: body `"hello"` with header `X: a, b` is published once on `"svc"`. -/
theorem ServeHTTP_publish_success_witness :
    busOps (ServeHTTP (plainPublish (replyConn (plainReply worldBytes))) okWriter
      (mkRequest [("X", ["a", "b"])] (.ok helloBytes)) okNext).trace
      = [.Publish "svc" helloBytes] ∧
    statuses (ServeHTTP (plainPublish (replyConn (plainReply worldBytes))) okWriter
      (mkRequest [("X", ["a", "b"])] (.ok helloBytes)) okNext).trace = [] ∧
    writes (ServeHTTP (plainPublish (replyConn (plainReply worldBytes))) okWriter
      (mkRequest [("X", ["a", "b"])] (.ok helloBytes)) okNext).trace = [] ∧
    (ServeHTTP (plainPublish (replyConn (plainReply worldBytes))) okWriter
      (mkRequest [("X", ["a", "b"])] (.ok helloBytes)) okNext).trace
      = [.ReadAll, .Publish "svc" helloBytes, .Next, .BodyClose] ∧
    (ServeHTTP (plainPublish (replyConn (plainReply worldBytes))) okWriter
      (mkRequest [("X", ["a", "b"])] (.ok helloBytes)) okNext).outcome = .returned none :=
  ServeHTTP_publish_success (plainPublish (replyConn (plainReply worldBytes))) okWriter
    (mkRequest [("X", ["a", "b"])] (.ok helloBytes)) okNext helloBytes rfl rfl
    (by intro k vs h; simp [mkRequest] at h; simp [h.2]) rfl

/-- Once the body is read, `ServeHTTP` closes it on every way out: after a publish, after
the request/reply branch, and when header collection panics. -/
theorem ServeHTTP_closes_after_read (p : Publish) (w : ResponseWriter) (r : Request)
    (next : Handler) (data : Bytes) (hbody : r.Body = .ok data) :
    bodyClosed (ServeHTTP p w r next).trace = true := by
  unfold ServeHTTP bodyClosed
  simp [hbody, deferBodyClose]

/-- Claim C8, the failing path.  When `ioutil.ReadAll` fails, `ServeHTTP` returns the read
error before `defer r.Body.Close()` is reached: the only call made is the read, the body
is not closed. -/
theorem ServeHTTP_read_error_leaves_body_open :
    ServeHTTP (plainPublish (replyConn (plainReply worldBytes))) okWriter
      (mkRequest [("X", ["a"])] (.error (.Other "unexpected EOF"))) okNext
      = { trace := [.ReadAll], outcome := .returned (some (.Other "unexpected EOF")) } ∧
    bodyClosed (ServeHTTP (plainPublish (replyConn (plainReply worldBytes))) okWriter
      (mkRequest [("X", ["a"])] (.error (.Other "unexpected EOF"))) okNext).trace
      = false := by
  constructor
  · rfl
  · decide

/-- Claim C10.  When some inbound header name has an empty value list, the header
collection of `ServeHTTP` panics with index 0 out of range for length 0, whatever it had
collected before; with a readable body `ServeHTTP` ends in that panic having only read and
closed the body, and in every case its trace holds no bus operation, no `WriteHeader` and
no `Write`. -/
theorem ServeHTTP_empty_header_values (p : Publish) (w : ResponseWriter) (r : Request)
    (next : Handler) (k : String) (hk : (k, []) ∈ r.Header) :
    (∀ acc, collectHeaders r.Header acc = .error (.indexOutOfRange 0 0)) ∧
    (∀ data, r.Body = .ok data →
      ServeHTTP p w r next
        = { trace := [.ReadAll, .BodyClose], outcome := .panicked (.indexOutOfRange 0 0) }) ∧
    busOps (ServeHTTP p w r next).trace = [] ∧
    statuses (ServeHTTP p w r next).trace = [] ∧
    writes (ServeHTTP p w r next).trace = [] := by
  have hc := fun acc => collectHeaders_panics r.Header acc k hk
  refine ⟨hc, ?_, ?_⟩
  · intro data hbody
    simp [ServeHTTP, hbody, hc, deferBodyClose]
  · unfold ServeHTTP
    cases hbody : r.Body with
    | error e => simp [busOps, statuses, writes]
    | ok data => simp [hc, deferBodyClose, busOps, statuses, writes]

/-- Witness of C10: header `Y` without a value, next to `X: a, b`, in request/reply
mode. -/
theorem ServeHTTP_empty_header_values_witness :
    (∀ acc, collectHeaders [("X", ["a", "b"]), ("Y", [])] acc
      = .error (.indexOutOfRange 0 0)) ∧
    (∀ data, (mkRequest [("X", ["a", "b"]), ("Y", [])] (.ok helloBytes)).Body = .ok data →
      ServeHTTP (replyPublish 10000 (replyConn (plainReply worldBytes))) okWriter
        (mkRequest [("X", ["a", "b"]), ("Y", [])] (.ok helloBytes)) okNext
        = { trace := [.ReadAll, .BodyClose], outcome := .panicked (.indexOutOfRange 0 0) }) ∧
    busOps (ServeHTTP (replyPublish 10000 (replyConn (plainReply worldBytes))) okWriter
      (mkRequest [("X", ["a", "b"]), ("Y", [])] (.ok helloBytes)) okNext).trace = [] ∧
    statuses (ServeHTTP (replyPublish 10000 (replyConn (plainReply worldBytes))) okWriter
      (mkRequest [("X", ["a", "b"]), ("Y", [])] (.ok helloBytes)) okNext).trace = [] ∧
    writes (ServeHTTP (replyPublish 10000 (replyConn (plainReply worldBytes))) okWriter
      (mkRequest [("X", ["a", "b"]), ("Y", [])] (.ok helloBytes)) okNext).trace = [] :=
  ServeHTTP_empty_header_values (replyPublish 10000 (replyConn (plainReply worldBytes)))
    okWriter (mkRequest [("X", ["a", "b"]), ("Y", [])] (.ok helloBytes)) okNext "Y"
    (by decide)

/-! ## The request timeout -/

/-- A value within the `int64` range is left alone by the wrap-around. -/
theorem wrapInt64_of_fits (x : Int) (hlo : -9223372036854775808 ≤ x)
    (hhi : x ≤ 9223372036854775807) : wrapInt64 x = x := by
  unfold wrapInt64
  norm_num
  omega

/-- The only bus operation of `natsRequestReply` is its `RequestMsg` call, made on every
path with the timeout `requestTimeout p`. -/
theorem natsRequestReply_busOps (p : Publish) (subject : String) (reqBody : Bytes)
    (w : ResponseWriter) (headers : GoMap String) :
    busOps (natsRequestReply p subject reqBody w headers).trace
      = [.RequestMsg (requestMsg subject reqBody headers) (requestTimeout p)] := by
  cases hr : p.conn.RequestMsg (requestMsg subject reqBody headers) (requestTimeout p) with
  | error e =>
    by_cases h : e = GoError.ErrNoResponders
    · simp only [natsRequestReply, hr, h, if_true]
      rw [writeHeaderThen_valid _ _ _ _ (by decide) (by decide)]
      simp [busOps]
    · simp only [natsRequestReply, hr, h, if_false]
      rw [writeHeaderThen_valid _ _ _ _ (by decide) (by decide)]
      simp [busOps]
  | ok m =>
    by_cases hc : Header.Get m.Header "Nats-Service-Error-Code" ≠ "" ∧
        Header.Get m.Header "Nats-Service-Error-Code" ≠ "200"
    · cases ha : Atoi (Header.Get m.Header "Nats-Service-Error-Code") with
      | error e => simp [natsRequestReply, hr, hc, ha, busOps]
      | ok st =>
        simp only [natsRequestReply, hr, ha]
        rw [if_pos hc]
        by_cases hv : st < 100 ∨ st > 999
        · rw [writeHeaderThen_invalid _ _ _ _ hv]
          simp [busOps]
        · rw [writeHeaderThen_valid _ _ _ _ (by omega) (by omega)]
          simp [busOps]
    · simp only [natsRequestReply, hr, hc, if_false, busOps]

/-- Claim C7, at `Timeout = 0`.  An unset timeout bounds the request/reply call by the
zero duration, not by 10,000 ms: the constant `publishDefaultTimeout` is not consulted. -/
theorem requestTimeout_unset_not_default :
    (replyPublish 0 (failConn .ErrTimeout)).Timeout ≤ 0 ∧
    busOps (natsRequestReply (replyPublish 0 (failConn .ErrTimeout)) "svc" helloBytes
      okWriter []).trace = [.RequestMsg (requestMsg "svc" helloBytes []) 0] ∧
    requestTimeout (replyPublish 0 (failConn .ErrTimeout))
      ≠ publishDefaultTimeout * Millisecond := by
  refine ⟨by decide, by decide, by decide⟩

/-- Claim C7, amended.  For every `Timeout` between -9,223,372,036,854 and
9,223,372,036,854 (the values whose nanosecond count fits `int64`), zero and negative
values included, the request/reply call is bounded by exactly `Timeout` milliseconds. -/
theorem requestTimeout_exact (p : Publish) (subject : String) (reqBody : Bytes)
    (w : ResponseWriter) (headers : GoMap String)
    (hlo : -9223372036854 ≤ p.Timeout) (hhi : p.Timeout ≤ 9223372036854) :
    requestTimeout p = p.Timeout * Millisecond ∧
    busOps (natsRequestReply p subject reqBody w headers).trace
      = [.RequestMsg (requestMsg subject reqBody headers) (p.Timeout * Millisecond)] := by
  have ht : requestTimeout p = p.Timeout * Millisecond := by
    unfold requestTimeout Millisecond
    apply wrapInt64_of_fits <;> omega
  rw [natsRequestReply_busOps, ht]
  exact ⟨rfl, rfl⟩

/-- Witness of the amended C7: `Timeout = 2500` bounds the call by 2,500 ms. -/
theorem requestTimeout_exact_witness :
    requestTimeout (replyPublish 2500 (replyConn (plainReply worldBytes)))
      = 2500 * Millisecond ∧
    busOps (natsRequestReply (replyPublish 2500 (replyConn (plainReply worldBytes))) "svc"
      helloBytes okWriter []).trace
      = [.RequestMsg (requestMsg "svc" helloBytes []) (2500 * Millisecond)] :=
  requestTimeout_exact (replyPublish 2500 (replyConn (plainReply worldBytes))) "svc"
    helloBytes okWriter [] (by decide) (by decide)

/-! ## Committed statuses -/

/-- Claim C9, at a malformed override header.  A reply whose header is `"abc"` leaves the
request/reply branch with no status committed at all. -/
theorem natsRequestReply_malformed_commits_nothing :
    statusCommits (natsRequestReply
      (replyPublish 10000 (replyConn (codedReply "abc" failBytes))) "svc" helloBytes
      okWriter []).trace = [] ∧
    (statusCommits (natsRequestReply
      (replyPublish 10000 (replyConn (codedReply "abc" failBytes))) "svc" helloBytes
      okWriter []).trace).length ≠ 1 := by
  constructor
  · rfl
  · decide

/-- On the request/reply branch at most one status is committed, and exactly one unless
the override header is malformed or parses to a status outside `100..999`. -/
theorem natsRequestReply_commits (p : Publish) (subject : String) (reqBody : Bytes)
    (w : ResponseWriter) (headers : GoMap String) :
    (statusCommits (natsRequestReply p subject reqBody w headers).trace).length ≤ 1 ∧
    ((statusCommits (natsRequestReply p subject reqBody w headers).trace).length = 1 ↔
      ∀ m,
        p.conn.RequestMsg (requestMsg subject reqBody headers) (requestTimeout p) = .ok m →
        Header.Get m.Header "Nats-Service-Error-Code" = "" ∨
        Header.Get m.Header "Nats-Service-Error-Code" = "200" ∨
        ∃ n, Atoi (Header.Get m.Header "Nats-Service-Error-Code") = .ok n ∧
          100 ≤ n ∧ n ≤ 999) := by
  unfold statusCommits
  cases hr : p.conn.RequestMsg (requestMsg subject reqBody headers) (requestTimeout p) with
  | error e =>
    have hlen : (commitsFrom false (natsRequestReply p subject reqBody w headers).trace).length
        = 1 := by
      by_cases h : e = GoError.ErrNoResponders
      · simp only [natsRequestReply, hr, h, if_true]
        rw [writeHeaderThen_valid _ _ _ _ (by decide) (by decide)]
        simp [commitsFrom, checkWriteHeaderCode, informational, StatusNotFound]
      · simp only [natsRequestReply, hr, h, if_false]
        rw [writeHeaderThen_valid _ _ _ _ (by decide) (by decide)]
        simp [commitsFrom, checkWriteHeaderCode, informational, StatusInternalServerError]
    rw [hlen]
    exact ⟨le_refl 1, fun _ => (fun m hm => by cases hm), fun _ => rfl⟩
  | ok m =>
    by_cases hc : Header.Get m.Header "Nats-Service-Error-Code" ≠ "" ∧
        Header.Get m.Header "Nats-Service-Error-Code" ≠ "200"
    · cases ha : Atoi (Header.Get m.Header "Nats-Service-Error-Code") with
      | error e =>
        have hlen : (commitsFrom false
            (natsRequestReply p subject reqBody w headers).trace).length = 0 := by
          simp [natsRequestReply, hr, hc, ha, commitsFrom]
        rw [hlen]
        refine ⟨by omega, fun h => by omega, fun h => ?_⟩
        rcases h m rfl with h1 | h1 | ⟨n, hn, _⟩
        · exact absurd h1 hc.1
        · exact absurd h1 hc.2
        · rw [ha] at hn
          cases hn
      | ok st =>
        by_cases hv : st < 100 ∨ st > 999
        · have hchk : (checkWriteHeaderCode st).isSome = true := by
            unfold checkWriteHeaderCode
            rw [if_pos hv]
            rfl
          have hlen : (commitsFrom false
              (natsRequestReply p subject reqBody w headers).trace).length = 0 := by
            simp only [natsRequestReply, hr, ha]
            rw [if_pos hc, writeHeaderThen_invalid _ _ _ _ hv]
            simp [commitsFrom, hchk]
          rw [hlen]
          refine ⟨by omega, fun h => by omega, fun h => ?_⟩
          rcases h m rfl with h1 | h1 | ⟨n, hn, hlo, hhi⟩
          · exact absurd h1 hc.1
          · exact absurd h1 hc.2
          · rw [ha] at hn
            cases hn
            omega
        · have hchk : (checkWriteHeaderCode st).isSome = false := by
            unfold checkWriteHeaderCode
            rw [if_neg hv]
            rfl
          have hlen : (commitsFrom false
              (natsRequestReply p subject reqBody w headers).trace).length = 1 := by
            simp only [natsRequestReply, hr, ha]
            rw [if_pos hc, writeHeaderThen_valid _ _ _ _ (by omega) (by omega)]
            cases hinf : informational st <;> simp [commitsFrom, hchk, hinf]
          rw [hlen]
          refine ⟨le_refl 1, fun _ => ?_, fun _ => rfl⟩
          intro m2 hm2
          cases hm2
          exact Or.inr (Or.inr ⟨st, ha, by omega, by omega⟩)
    · have hlen : (commitsFrom false
          (natsRequestReply p subject reqBody w headers).trace).length = 1 := by
        simp only [natsRequestReply, hr, hc, if_false, commitsFrom, List.length_singleton]
      rw [hlen]
      refine ⟨le_refl 1, fun _ => ?_, fun _ => rfl⟩
      intro m2 hm2
      cases hm2
      by_cases h1 : Header.Get m.Header "Nats-Service-Error-Code" = ""
      · exact Or.inl h1
      · by_cases h2 : Header.Get m.Header "Nats-Service-Error-Code" = "200"
        · exact Or.inr (Or.inl h2)
        · exact absurd ⟨h1, h2⟩ hc

/-- Claim C9, amended.  `ServeHTTP` commits at most one status on the response.  It
commits exactly one precisely when `WithReply` is set, the body is read, header collection
ends normally, and the bus call fails or replies with no override header, with `"200"`, or
with a header that `strconv.Atoi` reads as a status within `100..999`.  On every other path
(read error, header panic, publish, malformed override, override outside `100..999`) the
handler commits none. -/
theorem ServeHTTP_commits_one_iff (p : Publish) (w : ResponseWriter) (r : Request)
    (next : Handler) :
    (statusCommits (ServeHTTP p w r next).trace).length ≤ 1 ∧
    ((statusCommits (ServeHTTP p w r next).trace).length = 1 ↔
      p.WithReply = true ∧
      ∃ data headers, r.Body = .ok data ∧ collectHeaders r.Header [] = .ok headers ∧
        ∀ m,
          p.conn.RequestMsg (requestMsg (r.repl p.Subject) data headers) (requestTimeout p)
            = .ok m →
          Header.Get m.Header "Nats-Service-Error-Code" = "" ∨
          Header.Get m.Header "Nats-Service-Error-Code" = "200" ∨
          ∃ n, Atoi (Header.Get m.Header "Nats-Service-Error-Code") = .ok n ∧
            100 ≤ n ∧ n ≤ 999) := by
  cases hbody : r.Body with
  | error e =>
    have hlen : (statusCommits (ServeHTTP p w r next).trace).length = 0 := by
      simp [ServeHTTP, hbody, statusCommits, commitsFrom]
    rw [hlen]
    refine ⟨by omega, fun h => by omega, fun h => ?_⟩
    obtain ⟨_, data, headers, hb, _⟩ := h
    cases hb
  | ok data =>
    cases hcol : collectHeaders r.Header [] with
    | error pn =>
      have hlen : (statusCommits (ServeHTTP p w r next).trace).length = 0 := by
        simp [ServeHTTP, hbody, hcol, deferBodyClose, statusCommits, commitsFrom]
      rw [hlen]
      refine ⟨by omega, fun h => by omega, fun h => ?_⟩
      obtain ⟨_, data2, headers, _, hc2, _⟩ := h
      cases hc2
    | ok headers =>
      cases hrep : p.WithReply with
      | false =>
        have hlen : (statusCommits (ServeHTTP p w r next).trace).length = 0 := by
          cases hp : p.conn.Publish (r.repl p.Subject) data <;>
            simp [ServeHTTP, hbody, hcol, hrep, hp, deferBodyClose, statusCommits,
              commitsFrom]
        rw [hlen]
        refine ⟨by omega, fun h => by omega, fun h => ?_⟩
        exact absurd h.1 (by simp)
      | true =>
        have htrace : statusCommits (ServeHTTP p w r next).trace
            = statusCommits
                (natsRequestReply p (r.repl p.Subject) data w headers).trace := by
          have ht : (ServeHTTP p w r next).trace
              = (.ReadAll :: (natsRequestReply p (r.repl p.Subject) data w headers).trace)
                ++ [.BodyClose] := by
            simp [ServeHTTP, hbody, hcol, hrep, deferBodyClose]
          unfold statusCommits
          rw [ht, commitsFrom_append_bodyClose]
          simp [commitsFrom]
        rw [htrace]
        obtain ⟨hle, hiff⟩ :=
          natsRequestReply_commits p (r.repl p.Subject) data w headers
        refine ⟨hle, fun h => ⟨rfl, data, headers, rfl, rfl, hiff.mp h⟩, fun h => ?_⟩
        obtain ⟨_, data2, headers2, hb, hc2, hw⟩ := h
        cases hb
        cases hc2
        exact hiff.mpr hw

/-- Witness of the amended C9: in request/reply mode a reply with header `"503"` commits
exactly one status. -/
theorem ServeHTTP_commits_one_iff_witness :
    (statusCommits (ServeHTTP (replyPublish 10000 (replyConn (codedReply "503" failBytes)))
      okWriter (mkRequest [("X", ["a", "b"])] (.ok helloBytes)) okNext).trace).length
      = 1 :=
  (ServeHTTP_commits_one_iff (replyPublish 10000 (replyConn (codedReply "503" failBytes)))
    okWriter (mkRequest [("X", ["a", "b"])] (.ok helloBytes)) okNext).2.mpr
    ⟨rfl, helloBytes, [("X", "a")], rfl, rfl, fun m hm => by
      have hm2 : codedReply "503" failBytes = m := Except.ok.inj hm
      subst hm2
      exact Or.inr (Or.inr ⟨503, rfl, by decide, by decide⟩)⟩

end CaddyNats
